import Mathlib

/-!
Verification of the turntable ball-release `Inhibitor` (src/inhibitor.h).

The component holds two fields: the previous turn time reported by the light
sensor (`mLastTurnTime`, an unsigned long, initially 0) and the number of
remaining inhibited rounds (`mInhibitRounds`, an unsigned short, initially 0).
`lightSpeedCallback` performs change detection, `hallSpeedCallback` advances
the countdown, `isInhibited` is the pure query.

Periods are machine naturals in the source; the counter only ever holds the
values 0, 1 and 2 (it is assigned the constant 2 and decremented only when
positive), so both fields are embedded as `ℕ`.  The threshold comparison is
performed in `double` in the source on integer-valued inputs; it is embedded
with exact rational arithmetic, which agrees with the `double` computation on
the machine-integer input domain (the gap between a ratio of 32-bit integers
and the threshold is many orders of magnitude larger than the rounding error
of the conversions and of the single division).  Debug printing in the source
has no effect on the state and is omitted.
-/

/-- The state of the `Inhibitor` class: the cached previous turn time and the
number of remaining inhibited rounds. -/
structure Inhibitor where
  mLastTurnTime : ℕ
  mInhibitRounds : ℕ
  deriving DecidableEq, Repr

/-- `RELATIVE_INHIBITION_THRESHOLD = 0.08`: percentage of turn time difference
relative to the current turn time above which inhibition should start. -/
def RELATIVE_INHIBITION_THRESHOLD : ℚ := 8 / 100

/-- Both member initializers are zero: `mLastTurnTime = 0`, `mInhibitRounds = 0`. -/
def Inhibitor.init : Inhibitor :=
  { mLastTurnTime := 0, mInhibitRounds := 0 }

/-- `Inhibitor::lightSpeedCallback(unsigned long turnTime)`: if the relative
deviation of the new turn time from the cached one (denominator: the new turn
time) exceeds the threshold, set `mInhibitRounds` to 2; in either case then
set `mLastTurnTime` to the new turn time.  Debug printing omitted. -/
def lightSpeedCallback (s : Inhibitor) (turnTime : ℕ) : Inhibitor :=
  let s1 :=
    if |(s.mLastTurnTime : ℚ) - (turnTime : ℚ)| / (turnTime : ℚ) >
        RELATIVE_INHIBITION_THRESHOLD then
      { s with mInhibitRounds := 2 }
    else
      s
  { s1 with mLastTurnTime := turnTime }

/-- `Inhibitor::hallSpeedCallback(unsigned long)`: ignore the argument and
decrement `mInhibitRounds` when it is positive. -/
def hallSpeedCallback (s : Inhibitor) (_period : ℕ) : Inhibitor :=
  if s.mInhibitRounds > 0 then
    { s with mInhibitRounds := s.mInhibitRounds - 1 }
  else
    s

/-- `Inhibitor::isInhibited() const`: `mInhibitRounds != 0`. -/
def isInhibited (s : Inhibitor) : Bool :=
  s.mInhibitRounds != 0

/-- One incoming sensor event: a fine (light-sensor) speed sample or a
once-per-revolution (hall-sensor) tick, each carrying a period payload. -/
inductive SensorEvent where
  | fine (period : ℕ)
  | tick (period : ℕ)
  deriving DecidableEq, Repr

/-- Dispatch one sensor event to the corresponding callback. -/
def applyEvent (s : Inhibitor) : SensorEvent → Inhibitor
  | SensorEvent.fine p => lightSpeedCallback s p
  | SensorEvent.tick p => hallSpeedCallback s p

/-- Run a sequence of sensor events from a given state, in order. -/
def runEvents (s : Inhibitor) (es : List SensorEvent) : Inhibitor :=
  es.foldl applyEvent s

/-- Helper: the counter after a fine sample is either 2 or unchanged. -/
theorem light_rounds_cases (s : Inhibitor) (p : ℕ) :
    (lightSpeedCallback s p).mInhibitRounds = 2 ∨
    (lightSpeedCallback s p).mInhibitRounds = s.mInhibitRounds := by
  unfold lightSpeedCallback
  split
  · exact Or.inl rfl
  · exact Or.inr rfl

/-- Helper: a revolution tick never increases the counter. -/
theorem hall_rounds_le (s : Inhibitor) (p : ℕ) :
    (hallSpeedCallback s p).mInhibitRounds ≤ s.mInhibitRounds := by
  unfold hallSpeedCallback
  split
  · exact Nat.sub_le _ _
  · exact Nat.le_refl _

/-- Helper: every event preserves the bound `mInhibitRounds ≤ 2`. -/
theorem applyEvent_rounds_le_two (s : Inhibitor) (e : SensorEvent)
    (h : s.mInhibitRounds ≤ 2) : (applyEvent s e).mInhibitRounds ≤ 2 := by
  cases e with
  | fine p =>
      rcases light_rounds_cases s p with h2 | h2 <;> rw [applyEvent, h2]
      exact h
  | tick p => exact Nat.le_trans (hall_rounds_le s p) h

/-- Helper: the bound `mInhibitRounds ≤ 2` is preserved by any event sequence. -/
theorem runEvents_rounds_le_two (es : List SensorEvent) (s : Inhibitor)
    (h : s.mInhibitRounds ≤ 2) : (runEvents s es).mInhibitRounds ≤ 2 := by
  induction es generalizing s with
  | nil => exact h
  | cons e es ih => exact ih (applyEvent s e) (applyEvent_rounds_le_two s e h)

/-- C1: for every state and every period `p > 0`, `lightSpeedCallback` sets
`mInhibitRounds` to 2 when the relative deviation of the cached turn time from
the new one (denominator `p`) strictly exceeds the threshold, leaves it
unchanged otherwise, and in both cases sets `mLastTurnTime` to `p`. -/
theorem fine_sample_spec (s : Inhibitor) (p : ℕ) (hp : 0 < p) :
    (lightSpeedCallback s p).mLastTurnTime = p ∧
    (RELATIVE_INHIBITION_THRESHOLD < |(s.mLastTurnTime : ℚ) - (p : ℚ)| / (p : ℚ) →
      (lightSpeedCallback s p).mInhibitRounds = 2) ∧
    (¬ RELATIVE_INHIBITION_THRESHOLD < |(s.mLastTurnTime : ℚ) - (p : ℚ)| / (p : ℚ) →
      (lightSpeedCallback s p).mInhibitRounds = s.mInhibitRounds) := by
  refine ⟨rfl, fun h => ?_, fun h => ?_⟩ <;>
    simp only [lightSpeedCallback, gt_iff_lt] <;>
    [rw [if_pos h]; rw [if_neg h]]

/-- Witness for C1: the first fine sample 1000 on a fresh inhibitor records
the period 1000. -/
theorem fine_sample_spec_witness :
    (lightSpeedCallback { mLastTurnTime := 0, mInhibitRounds := 0 } 1000).mLastTurnTime
      = 1000 :=
  (fine_sample_spec { mLastTurnTime := 0, mInhibitRounds := 0 } 1000 (by decide)).1

/-- C2: `isInhibited` is true iff `mInhibitRounds > 0`; in this functional
embedding the query takes the state as input and returns only a boolean, so
it cannot change the state. -/
theorem isInhibited_iff_rounds_pos (s : Inhibitor) :
    isInhibited s = true ↔ 0 < s.mInhibitRounds := by
  unfold isInhibited
  simp [Nat.pos_iff_ne_zero]

/-- C3: a revolution tick decrements a positive counter by exactly one, is a
no-op on a zero counter, and makes `isInhibited` transition from true to
false exactly when the counter was 1. -/
theorem tick_decrement_spec (s : Inhibitor) (p : ℕ) :
    (0 < s.mInhibitRounds →
      (hallSpeedCallback s p).mInhibitRounds = s.mInhibitRounds - 1) ∧
    (s.mInhibitRounds = 0 → hallSpeedCallback s p = s) ∧
    ((isInhibited s = true ∧ isInhibited (hallSpeedCallback s p) = false) ↔
      s.mInhibitRounds = 1) := by
  obtain ⟨lt, r⟩ := s
  cases r with
  | zero => simp [hallSpeedCallback, isInhibited]
  | succ n =>
      simp only [hallSpeedCallback, isInhibited]
      refine ⟨fun _ => by simp, fun hz => by omega, ?_⟩
      constructor
      · rintro ⟨-, h2⟩
        simp at h2
        omega
      · intro h1
        simp [h1]

/-- Witness for C3: a tick from counter 1 brings the counter to 0. -/
theorem tick_decrement_spec_witness :
    (hallSpeedCallback { mLastTurnTime := 1000, mInhibitRounds := 1 } 0).mInhibitRounds
      = 0 :=
  (tick_decrement_spec { mLastTurnTime := 1000, mInhibitRounds := 1 } 0).1 (by decide)

/-- C4: along every event sequence from the initial state the counter stays
at most 2; a revolution tick never increases it; a fine sample either sets it
to 2 or leaves it unchanged. -/
theorem rounds_bounded :
    (∀ es : List SensorEvent,
        (runEvents Inhibitor.init es).mInhibitRounds ≤ 2) ∧
    (∀ (s : Inhibitor) (p : ℕ),
        (hallSpeedCallback s p).mInhibitRounds ≤ s.mInhibitRounds) ∧
    (∀ (s : Inhibitor) (p : ℕ),
        (lightSpeedCallback s p).mInhibitRounds = 2 ∨
        (lightSpeedCallback s p).mInhibitRounds = s.mInhibitRounds) :=
  ⟨fun es => runEvents_rounds_le_two es Inhibitor.init (by decide),
   hall_rounds_le, light_rounds_cases⟩

/-- C5: the very first fine sample `p > 0` on a freshly constructed inhibitor
arms inhibition: the counter becomes 2 and `isInhibited` becomes true,
because the cached turn time is 0 so the relative deviation is 1. -/
theorem boot_arm (p : ℕ) (hp : 0 < p) :
    (lightSpeedCallback Inhibitor.init p).mInhibitRounds = 2 ∧
    isInhibited (lightSpeedCallback Inhibitor.init p) = true := by
  have hp' : (0 : ℚ) < (p : ℚ) := by exact_mod_cast hp
  have hcond : RELATIVE_INHIBITION_THRESHOLD <
      |((Inhibitor.init.mLastTurnTime : ℕ) : ℚ) - (p : ℚ)| / (p : ℚ) := by
    have h0 : ((Inhibitor.init.mLastTurnTime : ℕ) : ℚ) = 0 := rfl
    rw [h0, zero_sub, abs_neg, abs_of_pos hp', div_self hp'.ne']
    norm_num [RELATIVE_INHIBITION_THRESHOLD]
  simp only [lightSpeedCallback, gt_iff_lt]
  rw [if_pos hcond]
  exact ⟨rfl, rfl⟩

/-- Witness for C5: the first fine sample 1000 after construction arms. -/
theorem boot_arm_witness :
    (lightSpeedCallback Inhibitor.init 1000).mInhibitRounds = 2 ∧
    isInhibited (lightSpeedCallback Inhibitor.init 1000) = true :=
  boot_arm 1000 (by decide)

/-- Helper: a tick on a clear counter returns the state unchanged. -/
theorem hall_clear_noop (s : Inhibitor) (p : ℕ) (h : s.mInhibitRounds = 0) :
    hallSpeedCallback s p = s := by
  unfold hallSpeedCallback
  rw [if_neg]
  omega

/-- C6: from a clear counter, any sequence of revolution ticks (in particular
ten of them) leaves the whole state unchanged, so `isInhibited` is false
after every such sequence and hence throughout. -/
theorem clear_tick_saturation (s : Inhibitor) (ps : List ℕ)
    (h : s.mInhibitRounds = 0) :
    runEvents s (ps.map SensorEvent.tick) = s ∧
    isInhibited (runEvents s (ps.map SensorEvent.tick)) = false := by
  have key : runEvents s (ps.map SensorEvent.tick) = s := by
    induction ps with
    | nil => rfl
    | cons q qs ih =>
        show runEvents (applyEvent s (SensorEvent.tick q)) (qs.map SensorEvent.tick) = s
        rw [show applyEvent s (SensorEvent.tick q) = hallSpeedCallback s q from rfl,
          hall_clear_noop s q h]
        exact ih
  refine ⟨key, ?_⟩
  rw [key]
  simp [isInhibited, h]

/-- Witness for C6: ten ticks from a clear state with cached period 1000
leave the state unchanged. -/
theorem clear_tick_saturation_witness :
    runEvents { mLastTurnTime := 1000, mInhibitRounds := 0 }
        ((List.replicate 10 500).map SensorEvent.tick) =
      { mLastTurnTime := 1000, mInhibitRounds := 0 } :=
  (clear_tick_saturation { mLastTurnTime := 1000, mInhibitRounds := 0 }
    (List.replicate 10 500) rfl).1

/-- C7: a fine sample whose relative deviation equals the threshold exactly
does not arm: the comparison is strict, so the counter and the inhibit flag
are unchanged. -/
theorem exact_threshold_does_not_arm (s : Inhibitor) (p : ℕ) (hp : 0 < p)
    (hd : |(s.mLastTurnTime : ℚ) - (p : ℚ)| / (p : ℚ) =
      RELATIVE_INHIBITION_THRESHOLD) :
    (lightSpeedCallback s p).mInhibitRounds = s.mInhibitRounds ∧
    isInhibited (lightSpeedCallback s p) = isInhibited s := by
  have hnot : ¬ RELATIVE_INHIBITION_THRESHOLD <
      |(s.mLastTurnTime : ℚ) - (p : ℚ)| / (p : ℚ) := by
    rw [hd]
    exact lt_irrefl _
  simp only [lightSpeedCallback, gt_iff_lt]
  rw [if_neg hnot]
  exact ⟨rfl, rfl⟩

/-- Witness for C7: from a clear state with cached turn time 92, the sample
100 has deviation exactly 8/100 and does not arm. -/
theorem exact_threshold_does_not_arm_witness :
    (lightSpeedCallback { mLastTurnTime := 92, mInhibitRounds := 0 } 100).mInhibitRounds
      = 0 :=
  (exact_threshold_does_not_arm { mLastTurnTime := 92, mInhibitRounds := 0 } 100
    (by decide) (by norm_num [RELATIVE_INHIBITION_THRESHOLD])).1

/-- Helper: a fine sample repeating the cached period leaves the state
unchanged (the deviation is exactly 0). -/
theorem light_steady_noop (s : Inhibitor) (p : ℕ) (h : s.mLastTurnTime = p) :
    lightSpeedCallback s p = s := by
  have hz : |(s.mLastTurnTime : ℚ) - (p : ℚ)| / (p : ℚ) = 0 := by
    rw [h, sub_self, abs_zero, zero_div]
  have hnot : ¬ RELATIVE_INHIBITION_THRESHOLD <
      |(s.mLastTurnTime : ℚ) - (p : ℚ)| / (p : ℚ) := by
    rw [hz]
    norm_num [RELATIVE_INHIBITION_THRESHOLD]
  simp only [lightSpeedCallback, gt_iff_lt]
  rw [if_neg hnot]
  obtain ⟨lt, r⟩ := s
  simp_all

/-- C8: in a steady state (`mLastTurnTime = p`, `p > 0`), any number of
further fine samples with the same period `p` leaves the whole state
unchanged. -/
theorem steady_state_idempotent (s : Inhibitor) (p n : ℕ) (hp : 0 < p)
    (h : s.mLastTurnTime = p) :
    (fun t => lightSpeedCallback t p)^[n] s = s := by
  induction n with
  | zero => rfl
  | succ k ih =>
      rw [Function.iterate_succ_apply, light_steady_noop s p h]
      exact ih

/-- Witness for C8: five repeated samples of 1000 from a steady clear state
change nothing. -/
theorem steady_state_idempotent_witness :
    (fun t => lightSpeedCallback t 1000)^[5]
        { mLastTurnTime := 1000, mInhibitRounds := 0 } =
      { mLastTurnTime := 1000, mInhibitRounds := 0 } :=
  steady_state_idempotent { mLastTurnTime := 1000, mInhibitRounds := 0 } 1000 5
    (by decide) rfl

/-- C9: the revolution-tick callback ignores its period payload: any two
arguments produce identical resulting states from any state. -/
theorem tick_ignores_payload (s : Inhibitor) (a b : ℕ) :
    hallSpeedCallback s a = hallSpeedCallback s b := rfl

/-- C10: the revolution-tick callback never changes `mLastTurnTime`. -/
theorem tick_preserves_last_turn_time (s : Inhibitor) (p : ℕ) :
    (hallSpeedCallback s p).mLastTurnTime = s.mLastTurnTime := by
  unfold hallSpeedCallback
  split <;> rfl
